import Mathlib

/-!
# Verification of the AgMaps geomap data-to-visualization pipeline

A shallow embedding of the core logic of `geomap/src/shared.py` and
`geomap/src/app.py`: the column classifier (`Filter`), the resource cache
(`Cache.Store` / `Cache.Get` / `Cache.Invalidate` / the load path), the tabular
file handler with its numeric-header heuristic, the choropleth join and fill
styling, and the coordinate layer renderer (uniform values, range-of-interest
filtering, the vector color guard, and linear colormap construction).

Python strings are `String`, Python numbers are `ℚ` (exact ordered arithmetic
standing in for floats), Python lists are `List`, Python dicts over string keys
are association lists, and the external collaborators (pandas parsing, branca's
`LinearColormap`, scipy's `gaussian_kde`, folium) are modelled as black boxes:
a colormap is the data it was constructed from, an applied color is the pair of
the colormap and the value it was applied to, and the density estimate is an
arbitrary function parameter.
-/

/-! ## Small association-list helpers (Python dict / pandas row access) -/

/-- First-match lookup in an association list (Python `dict` access for the
unique-key states the code builds). -/
def plookup {V : Type} (n : String) : List (String × V) → Option V
  | [] => none
  | kv :: rest => if kv.1 = n then some kv.2 else plookup n rest

/-- Index of the first occurrence of `v` (Python `list.index`; total here,
returning the length when `v` is absent, which the call sites never do). -/
def firstIdx (v : String) : List String → Nat
  | [] => 0
  | x :: xs => if x = v then 0 else firstIdx v xs + 1

/-! ## Column classifier — `shared.py`, `ColumnType`, `Columns`, `Filter` -/

inductive ColumnType
  | Time | Name | Value | Longitude | Latitude | Free | NameGeoJSON
deriving DecidableEq, BEq

/-- The keyword sets of `shared.Columns`.  `Free` is `{None}` in the source,
which contains no string, so it is the empty string set here. -/
def keywords : ColumnType → List String
  | .Time => ["time", "date", "year"]
  | .Name => ["name", "orf", "uniqid", "face", "triangle", "iso_code",
              "continent", "country", "location", "territory"]
  | .Value => ["value", "weight", "intensity", "amount", "level", "count"]
  | .Longitude => ["longitude", "long", "lon"]
  | .Latitude => ["latitude", "lat"]
  | .Free => []
  | .NameGeoJSON => ["name", "admin", "iso_a3", "iso_a2", "iso"]

def allColumnTypes : List ColumnType :=
  [.Time, .Name, .Value, .Longitude, .Latitude, .Free, .NameGeoJSON]

/-- `column.lower()` in `Filter`'s fold loop (columns here are strings, so the
`except` branch never fires). -/
def foldColumn (s : String) : String := ⟨s.data.map Char.toLower⟩

/-- `v` belongs to the keyword set of some role other than `ctype`
(the `for type in Columns: if type != ctype: options -= Columns[type]` loops). -/
def inOtherRole (ctype : ColumnType) (v : String) : Bool :=
  allColumnTypes.any (fun t => !(t == ctype) && (keywords t).contains v)

/-- The primary candidate computation of `shared.Filter`: fold cases, take the
set of folded names (`dedup`; iteration order is irrelevant because the
collected indices are sorted), intersect with the role's keyword set (skipped
for `Free`), optionally remove the other roles' keywords (`remove_unknown`),
then map the sorted first-occurrence indices back to the original-case column
names. -/
def primaryList (columns : List String) (ctype : ColumnType)
    (removeUnknown : Bool) : List String :=
  let folded := columns.map foldColumn
  let options0 := folded.dedup
  let options1 :=
    if ctype = ColumnType.Free then options0
    else options0.filter (fun v => (keywords ctype).contains v)
  let options2 :=
    if removeUnknown then options1.filter (fun v => !(inOtherRole ctype v))
    else options1
  let indices := List.insertionSort (· ≤ ·) (options2.map (fun v => firstIdx v folded))
  indices.map (fun i => columns.getD i "")

/-- The fallback recompute of `shared.Filter` (the `if reassembled == good`
branch): start over from the whole folded set and remove every other role's
keywords instead of intersecting. -/
def fallbackList (columns : List String) (ctype : ColumnType) : List String :=
  let folded := columns.map foldColumn
  let fOptions := folded.dedup.filter (fun v => !(inOtherRole ctype v))
  let fIndices := List.insertionSort (· ≤ ·) (fOptions.map (fun v => firstIdx v folded))
  fIndices.map (fun i => columns.getD i "")

/-- `shared.Filter` with `all=True`: the full candidate list.  `hasId` is
whether a UI element id was supplied — only then does the empty-match fallback
(extras-first) replace the primary result. -/
def FilterAll (columns : List String) (ctype : ColumnType) (good : List String)
    (hasId : Bool) (removeUnknown : Bool) : List String :=
  let reassembled := primaryList columns ctype removeUnknown ++ good
  if hasId ∧ reassembled = good then good ++ fallbackList columns ctype
  else reassembled

/-- `shared.Filter` with `all=False`: `reassembled[0]` if non-empty else `None`. -/
def FilterFirst (columns : List String) (ctype : ColumnType) (good : List String)
    (hasId : Bool) (removeUnknown : Bool) : Option String :=
  (FilterAll columns ctype good hasId removeUnknown).head?

example : FilterAll ["LATITUDE", "x"] ColumnType.Latitude [] false false = ["LATITUDE"] := by decide
example : FilterAll ["Name", "NAME"] ColumnType.Name [] false false = ["Name"] := by decide
example : FilterFirst ["a", "lon"] ColumnType.Longitude [] false false = some "lon" := by decide
example : FilterAll ["foo"] ColumnType.Value ["X"] false false = ["X"] := by decide
example : FilterAll ["latitude", "foo"] ColumnType.Value ["X"] true false = ["X", "foo"] := by decide

/-! ## Resource cache — `shared.Cache` -/

/-- `a` starts `b` (helper for Python's substring test `token in key`). -/
def leadsWith : List Char → List Char → Bool
  | [], _ => true
  | _ :: _, [] => false
  | a :: as, b :: bs => a == b && leadsWith as bs

/-- `t` occurs contiguously in the second list. -/
def occursIn (t : List Char) : List Char → Bool
  | [] => t.isEmpty
  | b :: bs => leadsWith t (b :: bs) || occursIn t bs

/-- Python `token in key` for strings. -/
def strContains (key token : String) : Bool := occursIn token.data key.data

/-- The composite object-cache key of `Cache.Store` / `Cache.Get`:
`"".join(str(i) for i in inputs)` (inputs already rendered to strings). -/
def storeKey (inputs : List String) : String := String.join inputs

/-- Python dict insertion: overwrite in place if the key exists, else append. -/
def dictInsert {V : Type} (k : String) (v : V) (l : List (String × V)) : List (String × V) :=
  if l.any (fun kv => kv.1 = k) then l.map (fun kv => if kv.1 = k then (k, v) else kv)
  else l ++ [(k, v)]

/-- `Cache.Store(object, inputs)` on the object-cache dict. -/
def Store {V : Type} (objects : List (String × V)) (inputs : List String) (v : V) :
    List (String × V) :=
  dictInsert (storeKey inputs) v objects

/-- `Cache.Invalidate(input)`: collect every key containing the token as a
substring, then delete those keys. -/
def Invalidate {V : Type} (token : String) (objects : List (String × V)) :
    List (String × V) :=
  let invalid := (objects.filter (fun kv => strContains kv.1 token)).map Prod.fst
  objects.filter (fun kv => !(invalid.contains kv.1))

/-- The cache state: `_primary` (parsed files keyed by resolved path) and
`_objects` (derived objects keyed by composite key). -/
structure CacheSt (V : Type) where
  primary : List (String × V)
  objects : List (String × V)

/-- The per-file core of `Cache.Load` in `Example` mode: parse (via the pure
handler, modelling that an unchanged file parses the same way each time) only
on a primary-cache miss, then return a deep copy of the cached value — deep
copies are identities in this value-level model. -/
def loadOne {V : Type} (handler : String → V) (s : CacheSt V) (n : String) :
    V × CacheSt V :=
  match plookup n s.primary with
  | some v => (v, s)
  | none => (handler n, ⟨(n, handler n) :: s.primary, s.objects⟩)

/-- `Cache.Invalidate` acting on the whole state: only `_objects` is touched. -/
def invalidateState {V : Type} (token : String) (s : CacheSt V) : CacheSt V :=
  ⟨s.primary, Invalidate token s.objects⟩

example : strContains "file.csv|col1|col2" "file.csv" = true := by decide
example : strContains "other.csv|col1" "file.csv" = false := by decide
example : Invalidate "file.csv" [("file.csv|col1|col2", 1), ("other.csv", 2)] = [("other.csv", 2)] := by decide

/-! ## Tabular handler — `Cache.HandleDataFrame`, `Cache.DefaultHandler` -/

def isAsciiDigit (c : Char) : Bool := '0' ≤ c && c ≤ '9'

/-- Leading digit run: its length and the remainder. -/
def digitSpan (l : List Char) : Nat × List Char :=
  ((l.takeWhile isAsciiDigit).length, l.dropWhile isAsciiDigit)

/-- After the optional sign: `digits [. digits] [e|E [sign] digits]`, needing at
least one mantissa digit. -/
def floatTail (l : List Char) : Bool :=
  let s1 := digitSpan l
  let s2 := match s1.2 with
    | '.' :: r => digitSpan r
    | r => (0, r)
  if s1.1 + s2.1 = 0 then false
  else match s2.2 with
    | [] => true
    | 'e' :: r | 'E' :: r =>
      let r' := match r with
        | '+' :: s => s
        | '-' :: s => s
        | s => s
      let s3 := digitSpan r'
      decide (0 < s3.1) && s3.2.isEmpty
    | _ => false

def stripWs (l : List Char) : List Char :=
  ((l.dropWhile Char.isWhitespace).reverse.dropWhile Char.isWhitespace).reverse

/-- Modelled acceptance of the CPython builtin `float(str)` used by
`HandleDataFrame`'s heuristic (an external collaborator): optional surrounding
whitespace, optional sign, then a decimal literal with optional exponent, or
the special names `inf` / `infinity` / `nan`, case-insensitively. -/
def pyFloatParses (s : String) : Bool :=
  let l := stripWs s.data
  let l' := match l with
    | '+' :: r => r
    | '-' :: r => r
    | r => r
  let low := l'.map Char.toLower
  if low = "inf".data || low = "infinity".data || low = "nan".data then true
  else floatTail l'

/-- A raw tabular file, as the grid of cell strings the parsing collaborator
produces from the bytes. -/
structure RawTable where
  rows : List (List String)
deriving DecidableEq

/-- A parsed DataFrame: its column names and its data rows. -/
structure TableDF where
  header : List String
  body : List (List String)
deriving DecidableEq

/-- The synthetic names `[f"Column {i}" for i in range(n)]`. -/
def syntheticNames (n : Nat) : List String :=
  (List.range n).map (fun i => "Column " ++ toString i)

/-- Reading with the default header: first row becomes the column names. -/
def readWithHeader (t : RawTable) : TableDF := ⟨t.rows.headD [], t.rows.tail⟩

/-- Re-reading with `header=None, names=...`: every row is data. -/
def readNoHeader (t : RawTable) (names : List String) : TableDF := ⟨names, t.rows⟩

/-- `Cache.HandleDataFrame`: read once; if `float(df.columns[0])` succeeds
(only the first column name is tried — the `try` block raises on the first
`float` call or not at all), re-read headerless with synthetic names. -/
def HandleDataFrame (t : RawTable) : TableDF :=
  let df := readWithHeader t
  if pyFloatParses (df.header.getD 0 "") then readNoHeader t (syntheticNames df.header.length)
  else df

inductive Parsed
  | geo (raw : String)
  | table (df : TableDF)
  | text (raw : String)
deriving DecidableEq

/-- The extensions `Cache.DefaultHandler` routes to `HandleDataFrame`. -/
def tabularSuffixes : List String :=
  [".csv", ".xlsx", ".xls", ".odf", ".txt", ".dat", ".tsv", ".tab"]

/-- `Cache.DefaultHandler`: dispatch on the file suffix — `.geojson` parses as
JSON, the tabular suffixes go through `HandleDataFrame`, anything else is kept
as the raw file text. -/
def DefaultHandler (suffix : String) (t : RawTable) (raw : String) : Parsed :=
  if suffix = ".geojson" then .geo raw
  else if tabularSuffixes.contains suffix then .table (HandleDataFrame t)
  else .text raw

example : pyFloatParses "1.5" = true := by decide
example : pyFloatParses "abc" = false := by decide
example : pyFloatParses "-2e3" = true := by decide
example : pyFloatParses "Column 0" = false := by decide
example : pyFloatParses " 7 " = true := by decide
example : HandleDataFrame ⟨[["1.5", "abc"], ["2.0", "xyz"]]⟩ =
    ⟨["Column 0", "Column 1"], [["1.5", "abc"], ["2.0", "xyz"]]⟩ := by decide
example : HandleDataFrame ⟨[["name", "42"], ["a", "1"]]⟩ =
    ⟨["name", "42"], [["a", "1"]]⟩ := by decide

/-! ## Color mapping — branca `LinearColormap` as a black box -/

/-- A branca `LinearColormap` is determined by its constructor arguments. -/
structure LinearColormap where
  colors : List String
  vmin : ℚ
  vmax : ℚ
deriving DecidableEq

/-- The color a `LinearColormap` yields at a value: the external library is a
deterministic function of the colormap and the value, so the applied color is
modelled as that pair. -/
structure AppliedColor where
  cm : LinearColormap
  value : ℚ
deriving DecidableEq

def LinearColormap.app (cm : LinearColormap) (v : ℚ) : AppliedColor := ⟨cm, v⟩

def listMin : List ℚ → ℚ
  | [] => 0
  | x :: xs => xs.foldl min x

def listMax : List ℚ → ℚ
  | [] => 0
  | x :: xs => xs.foldl max x

/-! ## Choropleth join and fill — `app.GenerateHeatmap` (lines 681-698) and
`app.LoadChoropleth` -/

/-- A GeoJSON boundary feature: its property mapping (geometry is opaque). -/
structure Feature where
  props : List (String × String)
deriving DecidableEq

def featureProp (f : Feature) (k : String) : Option String := plookup k f.props

/-- `names`: the selected property of every feature
(`for feature in geojson["features"]: names.append(feature["properties"][k_prop])`). -/
def choroNames (features : List Feature) (kProp : String) : List String :=
  features.map (fun f => (featureProp f kProp).getD "")

/-- The drop loop of `GenerateHeatmap`: a dataset row (key, value) is kept
exactly when its key-column entry occurs among the collected names. -/
def dropUnmatched {R : Type} (rows : List (String × R)) (names : List String) :
    List (String × R) :=
  rows.filter (fun r => names.contains r.1)

/-- `df.set_index(k_col)[v_col].to_dict()` — a Python dict built row by row, so
for a duplicated key the last row wins: lookup in the reversed list. -/
def dfDictLookup {R : Type} (rows : List (String × R)) (k : String) : Option R :=
  plookup k rows.reverse

inductive Fill (C : Type)
  | transparent
  | colored (c : C)
deriving DecidableEq

/-- The fill of one feature in `LoadChoropleth`'s `style_function`:
`df_dict[x['properties']['name']] if x['properties']['name'] in df_dict else
"transparent"` — note the SOURCE hard-codes the `'name'` property here, not
`k_prop`. -/
def styleFill {R C : Type} (rows : List (String × R)) (colormap : R → C)
    (f : Feature) : Fill C :=
  match dfDictLookup rows ((featureProp f "name").getD "") with
  | some v => .colored (colormap v)
  | none => .transparent

/-- The numeric-branch colormap of `LoadChoropleth`: duplicate the selected
colors when fewer than two were chosen, then build a `LinearColormap` over the
min/max of the unique values of the value column. -/
def loadChoroplethNumericColormap (selectedColors : List String) (values : List ℚ) :
    LinearColormap :=
  let uniq := values.eraseDups
  let cs := if selectedColors.length < 2 then selectedColors ++ selectedColors
            else selectedColors
  ⟨cs, listMin uniq, listMax uniq⟩

/-! ## Coordinate layers — `app.GenerateHeatmap` (lines 701-749) and
`app.GenerateCoordinateMap` -/

/-- A DataFrame row of a coordinate file: column name to numeric value. -/
abbrev Row : Type := List (String × ℚ)

def rowGet (r : Row) (c : String) : ℚ := (plookup c r).getD 0

/-- `df.at[index, c] = v` for a present column. -/
def setCol (r : Row) (c : String) (v : ℚ) : Row :=
  r.map (fun kv => if kv.1 = c then (kv.1, v) else kv)

/-- `df[c] = ...` on one row: overwrite the column if present, else append it. -/
def setColOrAppend (r : Row) (c : String) (v : ℚ) : Row :=
  if (plookup c r).isSome then setCol r c v else r ++ [(c, v)]

/-- A coordinate DataFrame: its column names and its rows. -/
structure CoordDF where
  columns : List String
  rows : List Row
deriving DecidableEq

/-- `df_coord["Default_Uniform_Values"] = [1] * len(...)`: the synthetic
all-ones column appended when the selected value column is `"Uniform"`. -/
def addUniform (df : CoordDF) : CoordDF :=
  { columns := if df.columns.contains "Default_Uniform_Values" then df.columns
               else df.columns ++ ["Default_Uniform_Values"],
    rows := df.rows.map (fun r => setColOrAppend r "Default_Uniform_Values" 1) }

inductive ROIMode
  | Remove | Round
deriving DecidableEq

/-- The range-of-interest loop of `GenerateHeatmap`: a row whose value-column
entry is outside `[lo, hi]` is dropped (`Remove`) or written back as the upper
bound when above and the lower bound otherwise (`Round`); rows inside the
range are untouched. -/
def roiRows (mode : ROIMode) (lo hi : ℚ) (valCol : String) (rows : List Row) :
    List Row :=
  match mode with
  | .Remove => rows.filter (fun r => !(rowGet r valCol < lo || hi < rowGet r valCol))
  | .Round => rows.map (fun r =>
      if rowGet r valCol < lo || hi < rowGet r valCol then
        setCol r valCol (if hi < rowGet r valCol then hi else lo)
      else r)

def roiMsg : String :=
  "No locations to display! Check your Range of Interest and ensure the Value Column is properly set."

/-- The range-of-interest step followed by the emptiness check
(`if len(df_coord) == 0: Error(...); return ...`). -/
def roiStepRows (mode : ROIMode) (lo hi : ℚ) (valCol : String) (rows : List Row) :
    Except String (List Row) :=
  let kept := roiRows mode lo hi valCol rows
  if kept.isEmpty then .error roiMsg else .ok kept

inductive RenderMode
  | Raster | Vector
deriving DecidableEq

inductive VShape
  | Circle | Rectangle
deriving DecidableEq

/-- The per-layer settings `GenerateCoordinateMap` and the coordinate part of
`GenerateHeatmap` read from the dynamic UI inputs of one file. -/
structure CoordSettings where
  disable : Bool
  opacity : ℚ
  radius : ℚ
  blur : ℚ
  renderMode : RenderMode
  kdeOn : Bool
  vectorShape : VShape
  customColors : List String
  valueColumn : String
  roi : Bool
  roiMode : ROIMode
  roiMin : ℚ
  roiMax : ℚ
deriving DecidableEq

/-- `custom_colors = custom_colors + custom_colors` when fewer than two were
supplied (the vector branch of `GenerateCoordinateMap`). -/
def normalizeVectorColors (custom : List String) : List String :=
  if custom.length < 2 then custom ++ custom else custom

def colValues (df : CoordDF) (c : String) : List ℚ :=
  df.rows.map (fun r => rowGet r c)

/-- `df[val_col] = values + density * 0.1`, with the scipy `gaussian_kde`
estimate over the stacked (longitude, latitude) points supplied as an abstract
function. -/
def applyKDE (density : List (ℚ × ℚ) → List ℚ) (df : CoordDF)
    (valCol latCol lonCol : String) : CoordDF :=
  let pts := df.rows.map (fun r => (rowGet r lonCol, rowGet r latCol))
  let d := density pts
  { df with rows := ((df.rows.zip d).map
      (fun rd => setCol rd.1 valCol (rowGet rd.1 valCol + rd.2 * (1 / 10)))) }

inductive VectorMark
  | circle (lat lon radius : ℚ) (color : AppliedColor) (opacity : ℚ)
  | rect (latLo lonLo latHi lonHi : ℚ) (color : AppliedColor) (opacity : ℚ)
deriving DecidableEq

def markColor : VectorMark → AppliedColor
  | .circle _ _ _ c _ => c
  | .rect _ _ _ _ c _ => c

/-- The folium raster heat layer: its points and parameters. -/
structure RasterLayer where
  points : List (ℚ × ℚ × ℚ)
  minOpacity : ℚ
  radius : ℚ
  blur : ℚ
deriving DecidableEq

inductive CoordResult
  | guardError (msg : String)
  | disabled
  | raster (layer : RasterLayer)
  | vector (marks : List VectorMark)
deriving DecidableEq

def guardMsg : String := "Error: Please specify at least one color."

/-- The DataFrame `GenerateCoordinateMap` renders from: the input after the
optional density blend (`if "Color by Density" in kde_config`). -/
def kdeDF (st : CoordSettings) (density : List (ℚ × ℚ) → List ℚ) (df : CoordDF)
    (valCol latCol lonCol : String) : CoordDF :=
  if st.kdeOn then applyKDE density df valCol latCol lonCol else df

/-- The vector branch's `LinearColormap(colors=custom_colors,
vmin=df[val_col].min(), vmax=df[val_col].max())`, after the duplication of a
single supplied color. -/
def vectorColormap (st : CoordSettings) (df : CoordDF) (valCol : String) :
    LinearColormap :=
  ⟨normalizeVectorColors st.customColors,
   listMin (colValues df valCol), listMax (colValues df valCol)⟩

/-- The vector branch's per-row loop: one circle (radius ×10) or rectangle
(half-width radius ÷10000) per data point, filled with the colormap applied to
the row's value, at the layer opacity. -/
def vectorMarks (st : CoordSettings) (df : CoordDF) (valCol latCol lonCol : String) :
    List VectorMark :=
  df.rows.map (fun r =>
    match st.vectorShape with
    | .Circle =>
      .circle (rowGet r latCol) (rowGet r lonCol) (st.radius * 10)
        ((vectorColormap st df valCol).app (rowGet r valCol)) st.opacity
    | .Rectangle =>
      .rect (rowGet r latCol - st.radius / 10000) (rowGet r lonCol - st.radius / 10000)
        (rowGet r latCol + st.radius / 10000) (rowGet r lonCol + st.radius / 10000)
        ((vectorColormap st df valCol).app (rowGet r valCol)) st.opacity)

/-- `app.GenerateCoordinateMap`: the zero-color guard (before anything else,
even the disable check), the disable check, the optional density blend, then
either the raster heat layer or one vector mark per row colored through a
`LinearColormap` over the value column's min/max. -/
def GenerateCoordinateMap (st : CoordSettings) (density : List (ℚ × ℚ) → List ℚ)
    (df : CoordDF) (valCol latCol lonCol : String) : CoordResult :=
  if st.customColors.length = 0 then .guardError guardMsg
  else if st.disable then .disabled
  else
    match st.renderMode with
    | .Raster =>
      .raster ⟨(kdeDF st density df valCol latCol lonCol).rows.map
                 (fun r => (rowGet r latCol, rowGet r lonCol, rowGet r valCol)),
               st.opacity, st.radius, st.blur⟩
    | .Vector =>
      .vector (vectorMarks st (kdeDF st density df valCol latCol lonCol) valCol latCol lonCol)

def latLonMsg : String :=
  "The heat map could not be rendered. Please ensure your input data contains a latitude column and a longitude column."

/-- The per-file preparation in `GenerateHeatmap`'s coordinate loop, up to the
call of `GenerateCoordinateMap`: find the latitude/longitude columns via the
classifier (aborting the whole render when absent), substitute the synthetic
uniform column when `"Uniform"` is selected, then apply the range-of-interest
step when enabled (aborting the whole render when it empties the data). -/
def prepared (st : CoordSettings) (df : CoordDF) :
    Except String (CoordDF × String × String × String) :=
  match FilterFirst df.columns ColumnType.Latitude [] false false,
        FilterFirst df.columns ColumnType.Longitude [] false false with
  | some latCol, some lonCol =>
    let p := if st.valueColumn = "Uniform" then (addUniform df, "Default_Uniform_Values")
             else (df, st.valueColumn)
    if st.roi then
      match roiStepRows st.roiMode st.roiMin st.roiMax p.2 p.1.rows with
      | .error m => .error m
      | .ok kept => .ok ({ p.1 with rows := kept }, p.2, latCol, lonCol)
    else .ok (p.1, p.2, latCol, lonCol)
  | _, _ => .error latLonMsg

/-- One coordinate file with the name its settings are keyed by. -/
structure CoordFile where
  name : String
  df : CoordDF
deriving DecidableEq

inductive StepOut
  | abort (msg : String)
  | result (r : CoordResult)
deriving DecidableEq

/-- One iteration of `GenerateHeatmap`'s coordinate loop: an `abort` returns
the guidance HTML for the whole render, while any `CoordResult` (including the
guard error) lets the loop continue with the next file. -/
def coordStep (st : CoordSettings) (density : List (ℚ × ℚ) → List ℚ)
    (f : CoordFile) : StepOut :=
  match prepared st f.df with
  | .error m => .abort m
  | .ok out => .result (GenerateCoordinateMap st density out.1 out.2.1 out.2.2.1 out.2.2.2)

/-- The coordinate loop of `GenerateHeatmap` over all selected files. -/
def renderCoordLayers (sOf : String → CoordSettings) (density : List (ℚ × ℚ) → List ℚ) :
    List CoordFile → Except String (List (String × CoordResult))
  | [] => .ok []
  | f :: rest =>
    match coordStep (sOf f.name) density f with
    | .abort m => .error m
    | .result r => (renderCoordLayers sOf density rest).map (fun b => (f.name, r) :: b)

/-- The points a layer result contributes to the map. -/
def resultMarks : CoordResult → List VectorMark
  | .vector marks => marks
  | _ => []

/-! ## Shared lemmas -/

lemma mem_invalid_iff {V : Type} (objects : List (String × V)) (token key : String)
    (v : V) (hmem : (key, v) ∈ objects) :
    key ∈ ((objects.filter (fun kv => strContains kv.1 token)).map Prod.fst) ↔
      strContains key token = true := by
  constructor
  · intro h
    obtain ⟨kv, hkv, hfst⟩ := List.mem_map.mp h
    obtain ⟨_, hc⟩ := List.mem_filter.mp hkv
    exact hfst ▸ hc
  · intro h
    exact List.mem_map.mpr ⟨(key, v), List.mem_filter.mpr ⟨hmem, h⟩, rfl⟩

/-! ## Claim theorems -/

/-- **C6.** `Invalidate(token)` removes exactly the object-cache entries whose
composite key contains `token` as a substring and leaves every other entry
present with its value unchanged. -/
theorem invalidate_removes_exactly_substring_keys {V : Type} (token : String)
    (objects : List (String × V)) (key : String) (v : V) :
    (key, v) ∈ Invalidate token objects ↔
      ((key, v) ∈ objects ∧ strContains key token = false) := by
  have hc : ∀ (l : List String) (a : String), l.contains a = true ↔ a ∈ l :=
    fun l a => List.elem_iff
  unfold Invalidate
  simp only [List.mem_filter, Bool.not_eq_true']
  constructor
  · rintro ⟨hmem, hni⟩
    refine ⟨hmem, ?_⟩
    cases hsc : strContains key token
    · rfl
    · exfalso
      have hct : (List.map Prod.fst (List.filter (fun kv => strContains kv.1 token) objects)).contains key = true :=
        (hc _ _).mpr ((mem_invalid_iff objects token key v hmem).mpr hsc)
      rw [hni] at hct
      exact absurd hct (by decide)
  · rintro ⟨hmem, hnc⟩
    refine ⟨hmem, ?_⟩
    cases hni : (List.map Prod.fst (List.filter (fun kv => strContains kv.1 token) objects)).contains key
    · rfl
    · exfalso
      have hmm := (hc _ _).mp hni
      have hsc := (mem_invalid_iff objects token key v hmem).mp hmm
      rw [hnc] at hsc
      exact absurd hsc (by decide)

/-- **C7.** Loading a file, invalidating the cache with its identifier, then
loading again yields the same value as the first load: `Invalidate` only
touches the object cache, so the second load re-reads (a deep copy of) the
untouched primary entry, and the parse itself is deterministic. -/
theorem cache_load_invalidate_load_roundtrip {V : Type} (handler : String → V)
    (s : CacheSt V) (n token : String) :
    (loadOne handler (invalidateState token (loadOne handler s n).2) n).1 =
      (loadOne handler s n).1 := by
  unfold loadOne invalidateState
  cases h : plookup n s.primary with
  | some v => simp [h]
  | none => simp [h, plookup]

/-- **C9.** Supplying exactly one anchor color builds the same linear colormap
as supplying that color twice, on both the numeric choropleth path and the
vector coordinate path (where the whole rendered layer coincides). -/
theorem single_color_degenerate_ramp (st : CoordSettings)
    (density : List (ℚ × ℚ) → List ℚ) (df : CoordDF) (valCol latCol lonCol : String)
    (c : String) (values : List ℚ) :
    loadChoroplethNumericColormap [c] values = loadChoroplethNumericColormap [c, c] values ∧
    GenerateCoordinateMap { st with customColors := [c] } density df valCol latCol lonCol =
      GenerateCoordinateMap { st with customColors := [c, c] } density df valCol latCol lonCol := by
  constructor
  · simp [loadChoroplethNumericColormap]
  · simp [GenerateCoordinateMap, kdeDF, vectorMarks, vectorColormap,
      normalizeVectorColors, applyKDE]

/-- **C2.** With range-of-interest bounds `lo ≤ hi`: `Remove` keeps exactly the
rows whose value lies in `[lo, hi]` (unchanged), `Round` rewrites values below
`lo` to `lo` and above `hi` to `hi` leaving in-range rows untouched, and when
`Remove` empties the data the step fails with the user-visible message instead
of producing a layer. -/
theorem roi_remove_round_semantics (lo hi : ℚ) (valCol : String) (rows : List Row)
    (h : lo ≤ hi) :
    roiRows .Remove lo hi valCol rows =
      rows.filter (fun r => lo ≤ rowGet r valCol ∧ rowGet r valCol ≤ hi) ∧
    roiRows .Round lo hi valCol rows =
      rows.map (fun r =>
        if rowGet r valCol < lo then setCol r valCol lo
        else if hi < rowGet r valCol then setCol r valCol hi else r) ∧
    (roiRows .Remove lo hi valCol rows = [] →
      roiStepRows .Remove lo hi valCol rows = .error roiMsg) := by
  refine ⟨?_, ?_, ?_⟩
  · apply List.filter_congr
    intro r _
    by_cases h1 : rowGet r valCol < lo <;> by_cases h2 : hi < rowGet r valCol <;>
      simp [h1, h2, le_of_not_lt, not_lt.mp]
  · apply List.map_congr_left
    intro r _
    by_cases h1 : rowGet r valCol < lo
    · have h2 : ¬ hi < rowGet r valCol := not_lt.mpr (le_of_lt (lt_of_lt_of_le h1 h))
      simp [h1, h2]
    · by_cases h2 : hi < rowGet r valCol <;> simp [h1, h2]
  · intro he
    simp [roiStepRows, he]

def roiRowsW : List Row := [[("value", -5)], [("value", 5)], [("value", 15)]]

/-- Witness for **C2** at the spec's example: bounds `[0, 10]` on values
`[-5, 5, 15]` — `Remove` keeps exactly the value-5 row, `Round` yields
`0, 5, 10`. -/
theorem roi_remove_round_semantics_witness :
    roiRows .Remove 0 10 "value" roiRowsW = [[("value", 5)]] ∧
    roiRows .Round 0 10 "value" roiRowsW =
      [[("value", 0)], [("value", 5)], [("value", 10)]] := by
  have h := roi_remove_round_semantics 0 10 "value" roiRowsW (by decide)
  exact ⟨h.1.trans (by decide), h.2.1.trans (by decide)⟩

/-- **C5 (counterexample).** The header row `["1.5", "abc"]` does not parse
entirely as floating point ("abc" fails), yet `HandleDataFrame` re-parses the
file headerless with synthetic column names — so the heuristic is not "the
entire first header row parses as floating-point". -/
theorem tabular_numeric_header_counterexample :
    ¬ (["1.5", "abc"].all pyFloatParses = true) ∧
    HandleDataFrame ⟨[["1.5", "abc"], ["2.0", "xyz"]]⟩ =
      ⟨["Column 0", "Column 1"], [["1.5", "abc"], ["2.0", "xyz"]]⟩ := by
  exact ⟨by decide, by decide⟩

/-- **C5 (amended).** A tabular file going through the cache's default handler
is parsed by `HandleDataFrame`, which re-parses headerless with synthetic
names `"Column 0" .. "Column N-1"` exactly when the FIRST entry of the header
row parses as a floating-point number, and keeps the original header row (with
the remaining rows as data) otherwise. -/
theorem tabular_numeric_header_heuristic (suffix : String) (t : RawTable)
    (raw : String) (hs : suffix ∈ tabularSuffixes) :
    DefaultHandler suffix t raw = .table (HandleDataFrame t) ∧
    (pyFloatParses ((t.rows.headD []).getD 0 "") = true →
      HandleDataFrame t = ⟨syntheticNames (t.rows.headD []).length, t.rows⟩) ∧
    (pyFloatParses ((t.rows.headD []).getD 0 "") = false →
      HandleDataFrame t = ⟨t.rows.headD [], t.rows.tail⟩) := by
  refine ⟨?_, ?_, ?_⟩
  · have hgeo : suffix ≠ ".geojson" := by
      rintro rfl
      revert hs
      decide
    have hcon : tabularSuffixes.contains suffix = true :=
      List.elem_iff.mpr hs
    rw [DefaultHandler, if_neg hgeo, if_pos hcon]
  · intro h
    simp only [HandleDataFrame, readWithHeader, readNoHeader]
    rw [if_pos h]
  · intro h
    simp only [HandleDataFrame, readWithHeader, readNoHeader]
    rw [if_neg (by rw [h]; decide)]

/-- Witness for **C5**: a `.csv` whose first header cell is `"1.5"` is re-read
with the synthetic column name. -/
theorem tabular_numeric_header_heuristic_witness :
    DefaultHandler ".csv" ⟨[["1.5"], ["2.5"]]⟩ "raw" =
      .table (HandleDataFrame ⟨[["1.5"], ["2.5"]]⟩) ∧
    HandleDataFrame ⟨[["1.5"], ["2.5"]]⟩ = ⟨["Column 0"], [["1.5"], ["2.5"]]⟩ := by
  have h := tabular_numeric_header_heuristic ".csv" ⟨[["1.5"], ["2.5"]]⟩ "raw" (by decide)
  exact ⟨h.1, (h.2.1 (by decide)).trans (by decide)⟩

def bugFeature : Feature := ⟨[("name", "Canada"), ("iso", "CAN")]⟩

def bugColormap : LinearColormap := ⟨["#8000ff", "#00bfff"], 5, 5⟩

/-- **C1 (divergence at the failing input).** With `keyProperty = "iso"`, the
feature's `"iso"` value `"CAN"` matches the kept dataset row `("CAN", 5)` — the
drop step keeps the row, as the claim says — yet the fill styling looks the
feature up by its hard-coded `'name'` property (`"Canada"`), finds nothing, and
renders the matching feature transparent instead of colored. -/
theorem choropleth_fill_ignores_key_property :
    choroNames [bugFeature] "iso" = ["CAN"] ∧
    dropUnmatched [("CAN", (5 : ℚ))] (choroNames [bugFeature] "iso") = [("CAN", 5)] ∧
    styleFill [("CAN", (5 : ℚ))] bugColormap.app bugFeature = Fill.transparent := by
  exact ⟨by decide, by decide, by decide⟩

/-! ## Classifier lemmas -/

lemma firstIdx_cons_self (v : String) (l : List String) : firstIdx v (v :: l) = 0 := by
  simp [firstIdx]

lemma firstIdx_cons_ne (v x : String) (l : List String) (h : x ≠ v) :
    firstIdx v (x :: l) = firstIdx v l + 1 := by
  simp [firstIdx, h]

/-- When the folded column names are pairwise distinct, the first-occurrence
indices of any filtered sublist of them are strictly increasing, and mapping
them back through `getD` recovers exactly the filtered original columns. -/
lemma classifier_pos_back (f : String → String) (d : String) :
    ∀ (l : List String) (q : String → Bool), (l.map f).Nodup →
      ((l.filter q).map (fun c => firstIdx (f c) (l.map f))).Pairwise (· < ·) ∧
      ((l.filter q).map (fun c => firstIdx (f c) (l.map f))).map
        (fun i => l.getD i d) = l.filter q := by
  intro l
  induction l with
  | nil => intro q _; simp
  | cons x xs ih =>
    intro q hnd
    rw [List.map_cons, List.nodup_cons] at hnd
    obtain ⟨hx, hxs⟩ := hnd
    have hne : ∀ c ∈ xs, f c ≠ f x := fun c hc hc' => hx (hc' ▸ List.mem_map_of_mem f hc)
    have hshift : ∀ c ∈ xs.filter q,
        (fun c => firstIdx (f c) (f x :: xs.map f)) c =
          (fun c => firstIdx (f c) (xs.map f) + 1) c := by
      intro c hc
      exact firstIdx_cons_ne (f c) (f x) (xs.map f)
        (Ne.symm (hne c (List.mem_of_mem_filter hc)))
    have hcomp : (fun c => firstIdx (f c) (xs.map f) + 1) =
        ((fun i => i + 1) ∘ (fun c => firstIdx (f c) (xs.map f))) := rfl
    have hback : ∀ i ∈ (xs.filter q).map (fun c => firstIdx (f c) (xs.map f)),
        ((fun i => (x :: xs).getD i d) ∘ (fun i => i + 1)) i =
          (fun i => xs.getD i d) i := by
      intro i _
      simp [Function.comp, List.getD_cons_succ]
    obtain ⟨ihp, ihb⟩ := ih q hxs
    by_cases hqx : q x
    · constructor
      · simp only [List.filter_cons_of_pos hqx, List.map_cons, firstIdx_cons_self]
        rw [List.map_congr_left hshift, hcomp, ← List.map_map]
        refine List.Pairwise.cons ?_
          (List.pairwise_map.mpr (ihp.imp fun h => Nat.succ_lt_succ h))
        intro a ha
        obtain ⟨i, _, rfl⟩ := List.mem_map.mp ha
        exact Nat.succ_pos i
      · simp only [List.filter_cons_of_pos hqx, List.map_cons, firstIdx_cons_self]
        rw [List.map_congr_left hshift, hcomp, ← List.map_map, List.getD_cons_zero,
          List.map_map, List.map_congr_left hback, ihb]
    · constructor
      · simp only [List.filter_cons_of_neg hqx, List.map_cons]
        rw [List.map_congr_left hshift, hcomp, ← List.map_map]
        exact List.pairwise_map.mpr (ihp.imp fun h => Nat.succ_lt_succ h)
      · simp only [List.filter_cons_of_neg hqx, List.map_cons]
        rw [List.map_congr_left hshift, hcomp, ← List.map_map, List.map_map]
        rw [List.map_congr_left hback]
        exact ihb

/-- The fold-intersect-sort-reassemble pipeline of `Filter`, for distinct
folded names: it returns exactly the original-case columns whose folded name
satisfies the predicate, in their original relative order. -/
lemma filter_pipeline (columns : List String) (p : String → Bool)
    (hnd : (columns.map foldColumn).Nodup) :
    (List.insertionSort (· ≤ ·)
        (((columns.map foldColumn).dedup.filter p).map
          (fun v => firstIdx v (columns.map foldColumn)))).map
      (fun i => columns.getD i "") =
      columns.filter (fun c => p (foldColumn c)) := by
  rw [List.dedup_eq_self.mpr hnd, List.filter_map, List.map_map]
  simp only [Function.comp_def]
  obtain ⟨hp, hb⟩ := classifier_pos_back foldColumn "" columns
    (fun c => p (foldColumn c)) hnd
  rw [List.Sorted.insertionSort_eq (hp.imp le_of_lt)]
  exact hb

/-- With distinct folded names, the primary candidate list (for a non-`Free`
role, without `remove_unknown`) is exactly the columns whose folded name is a
keyword of the role, in original order and casing. -/
lemma primaryList_eq (columns : List String) (ctype : ColumnType)
    (hFree : ctype ≠ ColumnType.Free)
    (hnd : (columns.map foldColumn).Nodup) :
    primaryList columns ctype false =
      columns.filter (fun c => (keywords ctype).contains (foldColumn c)) := by
  simp only [primaryList, if_neg hFree, if_neg (by decide : ¬ (false = true))]
  exact filter_pipeline columns (fun v => (keywords ctype).contains v) hnd

/-- With distinct folded names, the fallback list is exactly the columns whose
folded name belongs to no other role's keyword set, in original order. -/
lemma fallbackList_eq (columns : List String) (ctype : ColumnType)
    (hnd : (columns.map foldColumn).Nodup) :
    fallbackList columns ctype =
      columns.filter (fun c => !(inOtherRole ctype (foldColumn c))) := by
  simp only [fallbackList]
  exact filter_pipeline columns (fun v => !(inOtherRole ctype v)) hnd

/-- **C3 (amended).** When the folded column names are pairwise distinct and at
least one of them is a keyword of the requested role, `Filter` returns exactly
the matching columns — original casing, original relative order — with the
extras appended at the end (matching is case-insensitive because every name is
folded first), and in single-result mode the first element of that list.  (The
distinctness hypothesis is what the counterexample forces: two columns folding
to the same name are collapsed to the first occurrence by the set
intersection.) -/
theorem classifier_match_semantics (columns : List String) (ctype : ColumnType)
    (good : List String) (hasId : Bool)
    (hnd : (columns.map foldColumn).Nodup)
    (hmatch : ∃ c ∈ columns, (keywords ctype).contains (foldColumn c) = true) :
    FilterAll columns ctype good hasId false =
      columns.filter (fun c => (keywords ctype).contains (foldColumn c)) ++ good ∧
    FilterFirst columns ctype good hasId false =
      (columns.filter (fun c => (keywords ctype).contains (foldColumn c))).head? := by
  obtain ⟨c0, hc0, hk0⟩ := hmatch
  have hFree : ctype ≠ ColumnType.Free := by
    rintro rfl
    simp [keywords] at hk0
  have hmne : columns.filter (fun c => (keywords ctype).contains (foldColumn c)) ≠ [] :=
    List.ne_nil_of_mem (List.mem_filter.mpr ⟨hc0, hk0⟩)
  have hmain : FilterAll columns ctype good hasId false =
      columns.filter (fun c => (keywords ctype).contains (foldColumn c)) ++ good := by
    unfold FilterAll
    rw [primaryList_eq columns ctype hFree hnd]
    rw [if_neg ?_]
    rintro ⟨-, heq⟩
    have hlen := congrArg List.length heq
    rw [List.length_append] at hlen
    have : (columns.filter (fun c => (keywords ctype).contains (foldColumn c))).length = 0 := by
      omega
    exact hmne (List.eq_nil_of_length_eq_zero this)
  refine ⟨hmain, ?_⟩
  unfold FilterFirst
  rw [hmain]
  obtain ⟨m, ms, hms⟩ := List.exists_cons_of_ne_nil hmne
  rw [hms, List.cons_append]
  rfl

/-- **C3 (counterexample).** `["Name", "NAME"]` both case-fold to the keyword
`"name"` of the `Name` role, but `Filter` returns only `["Name"]` — the folded
set collapses the two matching columns — not both matching columns as the
claim states. -/
theorem classifier_match_counterexample :
    FilterAll ["Name", "NAME"] ColumnType.Name [] false false = ["Name"] ∧
    FilterAll ["Name", "NAME"] ColumnType.Name [] false false ≠ ["Name", "NAME"] := by
  exact ⟨by decide, by decide⟩

/-- Witness for **C3**: `"LATITUDE"` matches the `Latitude` role
case-insensitively, is returned in original casing with the extra appended,
and is the single-mode result. -/
theorem classifier_match_semantics_witness :
    FilterAll ["LATITUDE"] ColumnType.Latitude ["G"] false false = ["LATITUDE", "G"] ∧
    FilterFirst ["LATITUDE"] ColumnType.Latitude ["G"] false false = some "LATITUDE" := by
  have h := classifier_match_semantics ["LATITUDE"] ColumnType.Latitude ["G"] false
    (by decide) ⟨"LATITUDE", by decide, by decide⟩
  exact ⟨h.1.trans (by decide), h.2.trans (by decide)⟩

/-- **C4 (amended).** When an update-target id is supplied, the folded column
names are pairwise distinct, and none of them is a keyword of the requested
(non-`Free`) role, `Filter` returns the fallback list: the extras first,
followed by every column whose folded name belongs to no other role's keyword
set, in original order; the list is non-empty provided the extras are
non-empty or some column's folded name avoids all other roles' keyword sets.
(Without an id the fallback is skipped and only the extras are returned, and
the pathological all-other-role case yields an empty list.) -/
theorem classifier_fallback_semantics (columns : List String) (ctype : ColumnType)
    (good : List String)
    (hnd : (columns.map foldColumn).Nodup)
    (hFree : ctype ≠ ColumnType.Free)
    (hnomatch : ∀ c ∈ columns, (keywords ctype).contains (foldColumn c) = false)
    (hne : good ≠ [] ∨ ∃ c ∈ columns, inOtherRole ctype (foldColumn c) = false) :
    FilterAll columns ctype good true false =
      good ++ columns.filter (fun c => !(inOtherRole ctype (foldColumn c))) ∧
    FilterAll columns ctype good true false ≠ [] := by
  have hempty : columns.filter (fun c => (keywords ctype).contains (foldColumn c)) = [] := by
    rw [List.filter_eq_nil_iff]
    intro c hc
    rw [hnomatch c hc]
    exact Bool.false_ne_true
  have hmain : FilterAll columns ctype good true false =
      good ++ fallbackList columns ctype := by
    unfold FilterAll
    rw [primaryList_eq columns ctype hFree hnd, hempty, List.nil_append]
    rw [if_pos ⟨rfl, rfl⟩]
  rw [hmain, fallbackList_eq columns ctype hnd]
  refine ⟨rfl, ?_⟩
  intro hnil
  rw [List.append_eq_nil] at hnil
  rcases hne with hg | ⟨c, hc, hother⟩
  · exact hg hnil.1
  · have : c ∈ columns.filter (fun c => !(inOtherRole ctype (foldColumn c))) :=
      List.mem_filter.mpr ⟨hc, by rw [hother]; rfl⟩
    rw [hnil.2] at this
    exact absurd this (List.not_mem_nil c)

/-- **C4 (counterexample).** With no update-target id supplied (as in the
renderer's own `Filter(df.columns, ColumnType.Longitude)` calls), a column
list with no role keyword returns only the extras — the fallback candidate
list (`["X", "foo"]`) is never computed. -/
theorem classifier_fallback_counterexample :
    FilterAll ["foo"] ColumnType.Value ["X"] false false = ["X"] ∧
    FilterAll ["foo"] ColumnType.Value ["X"] false false ≠ ["X", "foo"] := by
  exact ⟨by decide, by decide⟩

/-- Witness for **C4**: with an id, `["latitude", "foo"]` contains no `Value`
keyword; `"latitude"` (a `Latitude` keyword) is removed and the fallback is
the extra first, then `"foo"`. -/
theorem classifier_fallback_semantics_witness :
    FilterAll ["latitude", "foo"] ColumnType.Value ["X"] true false = ["X", "foo"] ∧
    FilterAll ["latitude", "foo"] ColumnType.Value ["X"] true false ≠ [] := by
  have h := classifier_fallback_semantics ["latitude", "foo"] ColumnType.Value ["X"]
    (by decide) (by decide) (by decide) (Or.inr ⟨"foo", by decide, by decide⟩)
  exact ⟨h.1.trans (by decide), h.2⟩

/-! ## Coordinate-layer lemmas -/

lemma plookup_setCol_of_isSome (r : Row) (c : String) (v : ℚ)
    (h : (plookup c r).isSome) : plookup c (setCol r c v) = some v := by
  induction r with
  | nil => simp [plookup] at h
  | cons kv rest ih =>
    by_cases hk : kv.1 = c
    · simp [setCol, plookup, hk]
    · simp only [setCol, plookup, hk, if_false, List.map_cons, if_neg hk] at h ⊢
      exact ih h

lemma plookup_append_single (r : Row) (c : String) (v : ℚ)
    (h : plookup c r = none) : plookup c (r ++ [(c, v)]) = some v := by
  induction r with
  | nil => simp [plookup]
  | cons kv rest ih =>
    by_cases hk : kv.1 = c
    · simp [plookup, hk] at h
    · simp only [plookup, hk, if_neg hk, List.cons_append] at h ⊢
      exact ih h

lemma rowGet_setColOrAppend (r : Row) (c : String) (v : ℚ) :
    rowGet (setColOrAppend r c v) c = v := by
  unfold setColOrAppend rowGet
  by_cases h : (plookup c r).isSome
  · rw [if_pos h, plookup_setCol_of_isSome r c v h]
    rfl
  · rw [if_neg h, plookup_append_single r c v (Option.not_isSome_iff_eq_none.mp h)]
    rfl

/-- Every row of the synthetic uniform column holds the constant 1. -/
lemma addUniform_values (df : CoordDF) :
    (addUniform df).rows.map (fun r => rowGet r "Default_Uniform_Values") =
      List.replicate df.rows.length 1 := by
  unfold addUniform
  rw [List.map_map]
  refine List.eq_replicate_iff.mpr ⟨by simp, ?_⟩
  intro b hb
  obtain ⟨r, _, rfl⟩ := List.mem_map.mp hb
  exact rowGet_setColOrAppend r "Default_Uniform_Values" 1

lemma addUniform_rowGet (df : CoordDF) :
    ∀ r ∈ (addUniform df).rows, rowGet r "Default_Uniform_Values" = 1 := by
  intro r hr
  simp only [addUniform] at hr
  obtain ⟨r0, _, rfl⟩ := List.mem_map.mp hr
  exact rowGet_setColOrAppend r0 "Default_Uniform_Values" 1

/-- Every mark of a vector layer whose value column is constant carries the
same applied color. -/
lemma vectorMarks_color_const (st : CoordSettings) (df : CoordDF)
    (latCol lonCol : String)
    (hval : ∀ r ∈ df.rows, rowGet r "Default_Uniform_Values" = 1) :
    ∀ m ∈ vectorMarks st df "Default_Uniform_Values" latCol lonCol,
      markColor m = (vectorColormap st df "Default_Uniform_Values").app 1 := by
  intro m hm
  obtain ⟨r, hr, rfl⟩ := List.mem_map.mp hm
  cases st.vectorShape <;> simp [markColor, hval r hr]

/-- **C10.** When `"Uniform"` is the selected value column (and density
coloring is off, as the UI enforces for `"Uniform"`): the preparation step
substitutes the synthetic `"Default_Uniform_Values"` column and renders from
it, that column holds the constant 1 in every row, and consequently every
vector mark of the layer carries the same color. -/
theorem uniform_value_column_semantics (st : CoordSettings)
    (density : List (ℚ × ℚ) → List ℚ) (df : CoordDF) (latCol lonCol : String)
    (hval : st.valueColumn = "Uniform") (hkde : st.kdeOn = false) :
    (st.roi = false →
      ∀ latC lonC, FilterFirst df.columns ColumnType.Latitude [] false false = some latC →
        FilterFirst df.columns ColumnType.Longitude [] false false = some lonC →
        prepared st df = .ok (addUniform df, "Default_Uniform_Values", latC, lonC)) ∧
    (addUniform df).rows.map (fun r => rowGet r "Default_Uniform_Values") =
      List.replicate df.rows.length 1 ∧
    (∀ marks,
      GenerateCoordinateMap st density (addUniform df) "Default_Uniform_Values" latCol lonCol =
        CoordResult.vector marks →
      ∀ m ∈ marks, ∀ m' ∈ marks, markColor m = markColor m') := by
  refine ⟨?_, addUniform_values df, ?_⟩
  · intro hroi latC lonC hlat hlon
    simp [prepared, hlat, hlon, hval, hroi]
  · intro marks hm m hmm m' hm'
    unfold GenerateCoordinateMap at hm
    by_cases h0 : st.customColors.length = 0
    · rw [if_pos h0] at hm
      exact absurd hm (by simp)
    · rw [if_neg h0] at hm
      by_cases hd : st.disable = true
      · rw [if_pos hd] at hm
        exact absurd hm (by simp)
      · rw [if_neg hd] at hm
        cases hrm : st.renderMode with
        | Raster =>
          rw [hrm] at hm
          exact absurd hm (by simp)
        | Vector =>
          rw [hrm] at hm
          simp only [kdeDF, hkde, if_neg (by simp : ¬ (false = true))] at hm
          injection hm with hm
          subst hm
          have hc := vectorMarks_color_const st (addUniform df) latCol lonCol
            (addUniform_rowGet df)
          exact (hc m hmm).trans (hc m' hm').symm

def densityW : List (ℚ × ℚ) → List ℚ := fun _ => []

def dfU : CoordDF := ⟨["lat", "lon"], [[("lat", 1), ("lon", 2)], [("lat", 3), ("lon", 4)]]⟩

def stU : CoordSettings :=
  { disable := false, opacity := 1, radius := 25, blur := 15,
    renderMode := .Vector, kdeOn := false, vectorShape := .Circle,
    customColors := ["#8000ff"], valueColumn := "Uniform",
    roi := false, roiMode := .Remove, roiMin := 0, roiMax := 0 }

def marksU : List VectorMark :=
  [.circle 1 2 (stU.radius * 10)
     ((vectorColormap stU (addUniform dfU) "Default_Uniform_Values").app 1) stU.opacity,
   .circle 3 4 (stU.radius * 10)
     ((vectorColormap stU (addUniform dfU) "Default_Uniform_Values").app 1) stU.opacity]

/-- Witness for **C10**: a two-point uniform layer — the synthetic column is
`[1, 1]` and both rendered circles carry the same color. -/
theorem uniform_value_column_semantics_witness :
    prepared stU dfU = .ok (addUniform dfU, "Default_Uniform_Values", "lat", "lon") ∧
    (addUniform dfU).rows.map (fun r => rowGet r "Default_Uniform_Values") =
      List.replicate 2 1 ∧
    markColor (marksU.get ⟨0, by decide⟩) = markColor (marksU.get ⟨1, by decide⟩) := by
  have h := uniform_value_column_semantics stU densityW dfU "lat" "lon" rfl rfl
  refine ⟨h.1 rfl "lat" "lon" (by decide) (by decide), h.2.1.trans (by decide), ?_⟩
  exact h.2.2 marksU rfl _ (List.get_mem _ _ _) _ (List.get_mem _ _ _)

/-- Unfolding equation for the coordinate loop. -/
lemma renderCoordLayers_cons (sOf : String → CoordSettings)
    (density : List (ℚ × ℚ) → List ℚ) (f : CoordFile) (rest : List CoordFile) :
    renderCoordLayers sOf density (f :: rest) =
      match coordStep (sOf f.name) density f with
      | .abort m => .error m
      | .result r => (renderCoordLayers sOf density rest).map (fun b => (f.name, r) :: b) := rfl

/-- The coordinate loop over a concatenation: render both halves and
concatenate their layer lists (failure of either half aborts). -/
lemma renderCoordLayers_append (sOf : String → CoordSettings)
    (density : List (ℚ × ℚ) → List ℚ) (l1 l2 : List CoordFile) :
    renderCoordLayers sOf density (l1 ++ l2) =
      (renderCoordLayers sOf density l1).bind
        (fun a => (renderCoordLayers sOf density l2).map (fun b => a ++ b)) := by
  induction l1 with
  | nil =>
    cases h2 : renderCoordLayers sOf density l2 <;>
      simp [renderCoordLayers, h2, Except.bind, Except.map]
  | cons f rest ih =>
    rw [List.cons_append, renderCoordLayers_cons, renderCoordLayers_cons]
    cases hs : coordStep (sOf f.name) density f with
    | abort m => simp [Except.bind]
    | result r =>
      rw [ih]
      cases hr : renderCoordLayers sOf density rest <;>
        cases h2 : renderCoordLayers sOf density l2 <;>
          simp [hr, h2, Except.bind, Except.map]

/-- **C8.** A coordinate layer that reaches rendering (its latitude/longitude
columns resolve and range-of-interest does not abort) but has zero configured
custom colors in vector mode produces the guard error asking for at least one
color, contributes no points, and is skipped on its own: the surrounding loop
still renders every other layer, with only the guard-error entry in place of
this one. -/
theorem vector_zero_colors_guard (sOf : String → CoordSettings)
    (density : List (ℚ × ℚ) → List ℚ) (pre post : List CoordFile) (f : CoordFile)
    (hcolors : (sOf f.name).customColors = [])
    (_hmode : (sOf f.name).renderMode = RenderMode.Vector)
    (hprep : ∃ out, prepared (sOf f.name) f.df = Except.ok out) :
    coordStep (sOf f.name) density f = .result (.guardError guardMsg) ∧
    resultMarks (.guardError guardMsg) = [] ∧
    renderCoordLayers sOf density (pre ++ f :: post) =
      (renderCoordLayers sOf density pre).bind
        (fun a => (renderCoordLayers sOf density post).map
          (fun b => a ++ (f.name, CoordResult.guardError guardMsg) :: b)) := by
  obtain ⟨out, hout⟩ := hprep
  have hstep : coordStep (sOf f.name) density f = .result (.guardError guardMsg) := by
    unfold coordStep
    rw [hout]
    simp [GenerateCoordinateMap, hcolors]
  refine ⟨hstep, rfl, ?_⟩
  rw [renderCoordLayers_append]
  have hmid : renderCoordLayers sOf density (f :: post) =
      (renderCoordLayers sOf density post).map
        (fun b => (f.name, CoordResult.guardError guardMsg) :: b) := by
    rw [renderCoordLayers_cons, hstep]
  rw [hmid]
  cases hr : renderCoordLayers sOf density pre <;>
    cases h2 : renderCoordLayers sOf density post <;>
      simp [hr, h2, Except.bind, Except.map]

deriving instance DecidableEq for Except

def stG : CoordSettings :=
  { disable := false, opacity := 1, radius := 25, blur := 15,
    renderMode := .Vector, kdeOn := false, vectorShape := .Circle,
    customColors := [], valueColumn := "v",
    roi := false, roiMode := .Remove, roiMin := 0, roiMax := 0 }

def dfG : CoordDF := ⟨["lat", "lon", "v"], [[("lat", 1), ("lon", 2), ("v", 3)]]⟩

def fileA : CoordFile := ⟨"a.csv", dfG⟩

def fileB : CoordFile := ⟨"b.csv", dfG⟩

def sOfG : String → CoordSettings := fun _ => stG

/-- Witness for **C8**: two vector layers with zero configured colors — each
step yields the guard error and the loop still visits both files, producing a
guard-error entry (no points) for each rather than aborting. -/
theorem vector_zero_colors_guard_witness :
    coordStep (sOfG fileA.name) densityW fileA = .result (.guardError guardMsg) ∧
    renderCoordLayers sOfG densityW [fileA, fileB] =
      Except.ok [("a.csv", CoordResult.guardError guardMsg),
                 ("b.csv", CoordResult.guardError guardMsg)] := by
  have h := vector_zero_colors_guard sOfG densityW [] [fileB] fileA rfl rfl
    ⟨(dfG, "v", "lat", "lon"), by decide⟩
  exact ⟨h.1, h.2.2.trans (by decide)⟩
